import Mathlib

/-!
# Verification of the Ramadan reminder bot (`main.go`)

Shallow embedding of the notification scheduling and delivery engine:
the trigger policy, event derivation, the day-schedule lookup, the
image cache, the subscription state store and its persistence layer.

Modelling conventions:
* Go `time.Time` values are modelled as `Int` Unix seconds in the bot's
  configured time zone; `time.Duration` arithmetic becomes integer
  arithmetic on seconds (`time.Minute = 60`, `time.Hour = 3600`).
* Go `map` values are modelled as association lists together with a
  `mapGet` / `mapPut` pair; `mapPut` removes any previous binding of the
  key, mirroring Go map assignment, so maps built from `mapPut` always
  have pairwise-distinct keys.
* Go `int`/`int64` are modelled as `Int` (no overflow is reachable in
  the quantities involved: minutes-of-day, day counters, chat ids).
-/

namespace Ramadan

/-- Association-list lookup modelling Go `m[k]` (first binding wins). -/
def mapGet {κ α : Type} [DecidableEq κ] : List (κ × α) → κ → Option α
  | [], _ => none
  | (k', v) :: rest, k => if k' = k then some v else mapGet rest k

/-- Association-list update modelling Go `m[k] = v`: the new binding
replaces any previous binding of `k`. -/
def mapPut {κ α : Type} [DecidableEq κ] (m : List (κ × α)) (k : κ) (v : α) :
    List (κ × α) :=
  (k, v) :: m.filter (fun p => decide (p.1 ≠ k))

theorem mapGet_mapPut_self {κ α : Type} [DecidableEq κ]
    (m : List (κ × α)) (k : κ) (v : α) : mapGet (mapPut m k v) k = some v := by
  simp [mapGet, mapPut]

theorem mapGet_filter_ne {κ α : Type} [DecidableEq κ]
    (m : List (κ × α)) (k k' : κ) (h : k' ≠ k) :
    mapGet (m.filter (fun p => decide (p.1 ≠ k))) k' = mapGet m k' := by
  induction m with
  | nil => rfl
  | cons hd tl ih =>
    obtain ⟨k₀, v₀⟩ := hd
    by_cases hk : k₀ = k
    · have hne : ¬ k₀ = k' := by rw [hk]; exact fun hh => h hh.symm
      rw [List.filter_cons]
      rw [show (decide ((k₀, v₀).1 ≠ k)) = false by simp [hk]]
      simp only [mapGet, hne, if_false]
      simp only [Bool.false_eq_true, if_false]
      simpa using ih
    · rw [List.filter_cons]
      rw [show (decide ((k₀, v₀).1 ≠ k)) = true by simp [hk]]
      by_cases hk' : k₀ = k'
      · simp [mapGet, hk']
      · simp only [if_pos rfl, mapGet, hk', if_false]
        simpa using ih

theorem mapGet_mapPut_ne {κ α : Type} [DecidableEq κ]
    (m : List (κ × α)) (k k' : κ) (v : α) (h : k' ≠ k) :
    mapGet (mapPut m k v) k' = mapGet m k' := by
  have hne : ¬ k = k' := fun hh => h hh.symm
  simp only [mapPut, mapGet, hne, if_false]
  exact mapGet_filter_ne m k k' h

/-- `DayTimes` (main.go): prayer times in minutes from midnight for a
single Ramadan day. -/
structure DayTimes where
  Data      : String
  Day       : Int
  SuhoorEnd : Int
  Fajr      : Int
  Dhuhr     : Int
  Asr       : Int
  Maghrib   : Int
  Isha      : Int
  deriving DecidableEq, Repr

/-- `eventSpec` (main.go): one derived trigger event.  `Time` is Unix
seconds. -/
structure eventSpec where
  Key       : String
  Title     : String
  Time      : Int
  IsNiyat   : Bool
  UseIftar  : Bool
  UseSuhoor : Bool
  deriving DecidableEq, Repr

/-- `reminderEventsForDay` (main.go:1344): the six trigger events of one
day.  `base.Add(d * time.Minute)` becomes `base + 60 * d`.  Go struct
literals leave `Title`, `IsNiyat` and the unmentioned flag at their zero
values. -/
def reminderEventsForDay (base : Int) (day : DayTimes) : List eventSpec :=
  [ { Key := "suhoor", Title := "", Time := base + 60 * day.SuhoorEnd,
      IsNiyat := false, UseIftar := false, UseSuhoor := true },
    { Key := "fajr", Title := "", Time := base + 60 * day.Fajr,
      IsNiyat := false, UseIftar := false, UseSuhoor := false },
    { Key := "dhuhr", Title := "", Time := base + 60 * day.Dhuhr,
      IsNiyat := false, UseIftar := false, UseSuhoor := false },
    { Key := "asr", Title := "", Time := base + 60 * day.Asr,
      IsNiyat := false, UseIftar := false, UseSuhoor := false },
    { Key := "maghrib", Title := "", Time := base + 60 * day.Maghrib,
      IsNiyat := false, UseIftar := true, UseSuhoor := false },
    { Key := "isha", Title := "", Time := base + 60 * day.Isha,
      IsNiyat := false, UseIftar := false, UseSuhoor := false } ]

/-- `shouldTriggerReminder` (main.go:1355).  The fired-set (`sent`,
a Go `map[string]bool` used as a set) is modelled as the list of keys
marked `true`; a `nil` map corresponds to `[]`.  `now.Before(remindAt)`
is strict comparison, so `!now.Before(remindAt)` is `remindAt ≤ now`. -/
def shouldTriggerReminder (now : Int) (ev : eventSpec) (sent : List String) :
    Bool :=
  if sent.contains ev.Key then false
  else decide (ev.Time - 30 * 60 ≤ now)

end Ramadan

namespace Ramadan

/-- C1: `shouldTriggerReminder(t, e, S)` is true iff `t` is at or after
`e.Time` minus 30 minutes and `e.Key` is not in the fired-set `S`; in
particular it is false strictly before the 30-minute mark with an empty
set, true at exactly the mark, and false whenever `e.Key ∈ S`. -/
theorem shouldTrigger_iff (now : Int) (ev : eventSpec) (sent : List String) :
    shouldTriggerReminder now ev sent = true ↔
      (ev.Time - 30 * 60 ≤ now ∧ ev.Key ∉ sent) := by
  by_cases h : ev.Key ∈ sent
  · have hc : sent.contains ev.Key = true := List.elem_iff.mpr h
    simp [shouldTriggerReminder, hc, h]
  · have hc : sent.contains ev.Key = false := by
      by_contra hne
      exact h (List.elem_iff.mp (Bool.of_not_eq_false hne))
    simp [shouldTriggerReminder, hc, h]

/-- C2: `reminderEventsForDay` returns exactly six events in the order
suhoor, fajr, dhuhr, asr, maghrib, isha; each timestamp is the base plus
the schedule's minute offset; the suhoor flag is set on exactly the
first event and the iftar flag on exactly the fifth. -/
theorem reminderEventsForDay_spec (base : Int) (day : DayTimes) :
    (reminderEventsForDay base day).length = 6 ∧
    (reminderEventsForDay base day).map eventSpec.Key =
      ["suhoor", "fajr", "dhuhr", "asr", "maghrib", "isha"] ∧
    (reminderEventsForDay base day).map eventSpec.Time =
      [base + 60 * day.SuhoorEnd, base + 60 * day.Fajr,
       base + 60 * day.Dhuhr, base + 60 * day.Asr,
       base + 60 * day.Maghrib, base + 60 * day.Isha] ∧
    (reminderEventsForDay base day).map eventSpec.UseSuhoor =
      [true, false, false, false, false, false] ∧
    (reminderEventsForDay base day).map eventSpec.UseIftar =
      [false, false, false, false, true, false] := by
  refine ⟨rfl, rfl, rfl, rfl, rfl⟩

end Ramadan

namespace Ramadan

/-- Go `strings.TrimSpace`, modelled on the character list: drop
whitespace from both ends. -/
def trimSpace (raw : String) : String :=
  String.mk
    (((raw.data.dropWhile Char.isWhitespace).reverse.dropWhile
      Char.isWhitespace).reverse)

/-- `cleanClock` (main.go:1686): trim surrounding whitespace, stop at the
first `-`, and keep only digits and `:`. -/
def cleanClock (raw : String) : String :=
  String.mk (((trimSpace raw).data.takeWhile (fun c => decide (c ≠ '-'))).filter
    (fun c => decide (('0' ≤ c ∧ c ≤ '9') ∨ c = ':')))

/-- `mustClockToMinutes` (main.go:2523): parse a cleaned `"HH:MM"` clock
string into minutes since midnight.  Go delegates to
`time.Parse("15:04", clean)` and returns `Hour()*60 + Minute()`; the
model reads the two digit pairs at their fixed positions.  Malformed
input aborts the Go process (`log.Fatalf`); the model returns 0 there,
a case never reached on the repository's timetable. -/
def mustClockToMinutes (raw : String) : Int :=
  match (cleanClock raw).data with
  | [h1, h2, c, m1, m2] =>
    if c = ':' then
      Int.ofNat (((h1.toNat - 48) * 10 + (h2.toNat - 48)) * 60 +
        ((m1.toNat - 48) * 10 + (m2.toNat - 48)))
    else 0
  | _ => 0

/-- One row of the base timetable literal in `buildCalendars`
(main.go:2587): display date, ordinal day, and the five prayer clock
strings. -/
structure BaseRow where
  Date    : String
  Day     : Int
  Fajr    : String
  Dhuhr   : String
  Asr     : String
  Maghrib : String
  Isha    : String

/-- The 31-row base timetable literal of `buildCalendars`
(main.go:2596, days 0..30; day 0 is the pre-cycle placeholder). -/
def baseRows : List BaseRow :=
  [⟨"18.02.2026", 0, "05:42", "12:41", "15:40", "18:13", "19:29"⟩,
   ⟨"19.02.2026", 1, "05:41", "12:41", "15:40", "18:14", "19:30"⟩,
   ⟨"20.02.2026", 2, "05:40", "12:40", "15:41", "18:15", "19:31"⟩,
   ⟨"21.02.2026", 3, "05:39", "12:39", "15:41", "18:16", "19:32"⟩,
   ⟨"22.02.2026", 4, "05:38", "12:38", "15:42", "18:17", "19:33"⟩,
   ⟨"23.02.2026", 5, "05:37", "12:38", "15:43", "18:18", "19:34"⟩,
   ⟨"24.02.2026", 6, "05:35", "12:38", "15:44", "18:20", "19:35"⟩,
   ⟨"25.02.2026", 7, "05:34", "12:38", "15:44", "18:21", "19:36"⟩,
   ⟨"26.02.2026", 8, "05:32", "12:38", "15:45", "18:22", "19:37"⟩,
   ⟨"27.02.2026", 9, "05:31", "12:38", "15:46", "18:23", "19:38"⟩,
   ⟨"28.02.2026", 10, "05:29", "12:37", "15:47", "18:24", "19:39"⟩,
   ⟨"01.03.2026", 11, "05:28", "12:37", "15:48", "18:26", "19:41"⟩,
   ⟨"02.03.2026", 12, "05:27", "12:37", "15:48", "18:27", "19:42"⟩,
   ⟨"03.03.2026", 13, "05:26", "12:37", "15:49", "18:28", "19:43"⟩,
   ⟨"04.03.2026", 14, "05:24", "12:37", "15:50", "18:29", "19:44"⟩,
   ⟨"05.03.2026", 15, "05:22", "12:36", "15:50", "18:30", "19:45"⟩,
   ⟨"06.03.2026", 16, "05:20", "12:36", "15:51", "18:31", "19:46"⟩,
   ⟨"07.03.2026", 17, "05:19", "12:36", "15:51", "18:32", "19:47"⟩,
   ⟨"08.03.2026", 18, "05:17", "12:36", "15:52", "18:33", "19:48"⟩,
   ⟨"09.03.2026", 19, "05:16", "12:35", "15:53", "18:34", "19:49"⟩,
   ⟨"10.03.2026", 20, "05:14", "12:35", "15:53", "18:35", "19:50"⟩,
   ⟨"11.03.2026", 21, "05:13", "12:35", "15:54", "18:36", "19:51"⟩,
   ⟨"12.03.2026", 22, "05:11", "12:38", "15:55", "18:37", "19:52"⟩,
   ⟨"13.03.2026", 23, "05:10", "12:38", "15:55", "18:38", "19:53"⟩,
   ⟨"14.03.2026", 24, "05:08", "12:38", "15:56", "18:39", "19:54"⟩,
   ⟨"15.03.2026", 25, "05:07", "12:38", "15:56", "18:40", "19:55"⟩,
   ⟨"16.03.2026", 26, "05:05", "12:38", "15:57", "18:41", "19:56"⟩,
   ⟨"17.03.2026", 27, "05:04", "12:37", "15:57", "18:42", "19:57"⟩,
   ⟨"18.03.2026", 28, "05:02", "12:36", "15:57", "18:43", "19:58"⟩,
   ⟨"19.03.2026", 29, "05:01", "12:35", "15:58", "18:44", "19:59"⟩,
   ⟨"20.03.2026", 30, "05:00", "12:34", "15:58", "18:45", "20:00"⟩]

/-- The per-region minute offsets literal of `buildCalendars`
(main.go:2648), in source order. -/
def offsetsTable : List (String × Int) :=
  [("–î—É—à–∞–Ω–±–µ", 0),
   ("–ê—à—Ç", -6),
   ("–ê–π–Ω–∏", 1),
   ("–ö—É–ª–æ–±", -4),
   ("–†–∞—à—Ç", -6),
   ("–•–∞–º–∞–¥–æ–Ω–∏", -3),
   ("–•—É–¥–∂–∞–Ω–¥", -3),
   ("–ò—Å—Ç–∞—Ä–∞–≤—à–∞–Ω", -1),
   ("–ò—Å—Ñ–∞—Ä–∞", -7),
   ("–ö–æ–Ω–∏–±–æ–¥–æ–º", -6),
   ("–•–æ—Ä—É–≥", -11),
   ("–ú—É—Ä–≥–æ–±", -20),
   ("–®. –®–æ—Ö–∏–Ω", -5),
   ("–ú—É—ä–º–∏–Ω–æ–±–æ–¥", -3),
   ("–ü–∞–Ω—á–∞–∫–µ–Ω—Ç", 5),
   ("–®–∞—Ö—Ä–∏—Ç—É—Å", 3),
   ("–ù. –•—É—Å—Ä–∞–≤", 4),
   ("–¢—É—Ä—Å—É–Ω–∑–æ–¥–∞", 3)]

/-- The base-day construction loop of `buildCalendars` (main.go:2629):
`SuhoorEnd` is a copy of `Fajr`. -/
def baseDays : List DayTimes :=
  baseRows.map (fun d =>
    let fajr := mustClockToMinutes d.Fajr
    { Data := d.Date, Day := d.Day, SuhoorEnd := fajr, Fajr := fajr,
      Dhuhr := mustClockToMinutes d.Dhuhr, Asr := mustClockToMinutes d.Asr,
      Maghrib := mustClockToMinutes d.Maghrib,
      Isha := mustClockToMinutes d.Isha })

/-- `applyOffset` (main.go:2548): shift the six time fields by `offset`
minutes, clamping negative results to 0; date and day number pass
through. -/
def applyOffset (day : DayTimes) (offset : Int) : DayTimes :=
  let adjust := fun (val : Int) => if val + offset < 0 then 0 else val + offset
  { Data := day.Data, Day := day.Day,
    SuhoorEnd := adjust day.SuhoorEnd, Fajr := adjust day.Fajr,
    Dhuhr := adjust day.Dhuhr, Asr := adjust day.Asr,
    Maghrib := adjust day.Maghrib, Isha := adjust day.Isha }

/-- `buildCalendars` (main.go:2586): one calendar per region, the base
days shifted by the region's offset. -/
def buildCalendars : List (String × List DayTimes) :=
  offsetsTable.map (fun p => (p.1, baseDays.map (fun bd => applyOffset bd p.2)))

/-- `currentDaySchedule` (main.go:2533).  `now` and `start` are Unix
seconds; `int(math.Floor(now.Sub(start).Hours()/24.0)) + 1` is floored
real division, i.e. `Int.fdiv` on seconds (the float arithmetic is
modelled as exact).  The first entry whose `Day` equals the computed
index is returned. -/
def currentDaySchedule (days : List DayTimes) (start now : Int) : Option DayTimes :=
  let dayIndex : Int := Int.fdiv (now - start) 86400 + 1
  if dayIndex < 0 ∨ dayIndex > (days.length : Int) then none
  else days.find? (fun d => decide (d.Day = dayIndex))

end Ramadan

namespace Ramadan

theorem baseDays_bounds : ∀ bd ∈ baseDays,
    300 ≤ bd.SuhoorEnd ∧ 300 ≤ bd.Fajr ∧ 300 ≤ bd.Dhuhr ∧
    300 ≤ bd.Asr ∧ 300 ≤ bd.Maghrib ∧ 300 ≤ bd.Isha := by decide

theorem offsets_bound : ∀ p ∈ offsetsTable, -300 ≤ p.2 ∧ p.2 ≤ 300 := by
  decide

/-- C3 counterexample: half a day before the cycle start the computed
day index is `floor(-12h / 24h) + 1 = 0`, outside `[1, totalDays]`, yet
`currentDaySchedule` on the repository's first calendar returns the
Day-0 pre-cycle placeholder schedule rather than no schedule. -/
theorem currentDaySchedule_day_zero_counterexample :
    ∃ pr, buildCalendars.head? = some pr ∧
      Int.fdiv ((-43200 : Int) - 0) 86400 + 1 = 0 ∧
      ¬ (1 ≤ (0 : Int)) ∧
      (currentDaySchedule pr.2 0 (-43200)).map DayTimes.Day = some 0 := by
  refine ⟨_, rfl, by decide, by decide, by decide⟩

/-- C3 (amended): the current cycle day is `floor(elapsed / 24h) + 1`;
`currentDaySchedule` returns no schedule whenever that index is below 0
or above the number of calendar entries, and any schedule it returns
carries `Day` equal to the index, which hence lies in `[0, len days]` —
index 0 (the pre-cycle placeholder present in the repository's
calendars) also yields a schedule, one below the spec's lower bound. -/
theorem currentDaySchedule_range (days : List DayTimes) (start now : Int) :
    ((Int.fdiv (now - start) 86400 + 1 < 0 ∨
        Int.fdiv (now - start) 86400 + 1 > (days.length : Int)) →
      currentDaySchedule days start now = none) ∧
    ∀ d, currentDaySchedule days start now = some d →
      d.Day = Int.fdiv (now - start) 86400 + 1 ∧
      0 ≤ Int.fdiv (now - start) 86400 + 1 ∧
      Int.fdiv (now - start) 86400 + 1 ≤ (days.length : Int) := by
  constructor
  · intro h
    simp only [currentDaySchedule]
    rw [if_pos h]
  · intro d hd
    by_cases h : Int.fdiv (now - start) 86400 + 1 < 0 ∨
        Int.fdiv (now - start) 86400 + 1 > (days.length : Int)
    · simp only [currentDaySchedule] at hd
      rw [if_pos h] at hd
      exact absurd hd (by simp)
    · push_neg at h
      obtain ⟨h1, h2⟩ := h
      simp only [currentDaySchedule] at hd
      rw [if_neg (by omega)] at hd
      have hp := List.find?_some hd
      rw [decide_eq_true_eq] at hp
      exact ⟨hp, by omega, by omega⟩

/-- Witness for `currentDaySchedule_range`: an empty calendar with
index 1 yields no schedule, and a one-entry calendar at index 1 yields
that entry with matching day number. -/
theorem currentDaySchedule_range_witness :
    currentDaySchedule [] 0 0 = none ∧
    ((⟨"19.02.2026", 1, 341, 341, 761, 940, 1094, 1170⟩ : DayTimes).Day =
        Int.fdiv ((0 : Int) - 0) 86400 + 1 ∧
      0 ≤ Int.fdiv ((0 : Int) - 0) 86400 + 1 ∧
      Int.fdiv ((0 : Int) - 0) 86400 + 1 ≤
        (([⟨"19.02.2026", 1, 341, 341, 761, 940, 1094, 1170⟩] :
          List DayTimes).length : Int)) :=
  ⟨(currentDaySchedule_range [] 0 0).1 (by decide),
   (currentDaySchedule_range
      [⟨"19.02.2026", 1, 341, 341, 761, 940, 1094, 1170⟩] 0 0).2
      ⟨"19.02.2026", 1, 341, 341, 761, 940, 1094, 1170⟩ (by decide)⟩

/-- C7: every region's calendar is the base timetable with the region's
single minute offset added uniformly to all six time fields of every
day, the date string and day number unchanged.  (No clamping occurs:
all base times are at least 05:00 and all offsets at most 20 minutes in
magnitude.) -/
theorem buildCalendars_applyOffset_uniform (p : String × Int)
    (hp : p ∈ offsetsTable) :
    mapGet buildCalendars p.1 =
      some (baseDays.map (fun bd => applyOffset bd p.2)) ∧
    ∀ bd ∈ baseDays, applyOffset bd p.2 =
      { Data := bd.Data, Day := bd.Day, SuhoorEnd := bd.SuhoorEnd + p.2,
        Fajr := bd.Fajr + p.2, Dhuhr := bd.Dhuhr + p.2, Asr := bd.Asr + p.2,
        Maghrib := bd.Maghrib + p.2, Isha := bd.Isha + p.2 } := by
  constructor
  · fin_cases hp <;> rfl
  · intro bd hbd
    obtain ⟨h1, h2, h3, h4, h5, h6⟩ := baseDays_bounds bd hbd
    obtain ⟨ho1, ho2⟩ := offsets_bound p hp
    have hS : ¬ (bd.SuhoorEnd + p.2 < 0) := by omega
    have hF : ¬ (bd.Fajr + p.2 < 0) := by omega
    have hD : ¬ (bd.Dhuhr + p.2 < 0) := by omega
    have hA : ¬ (bd.Asr + p.2 < 0) := by omega
    have hM : ¬ (bd.Maghrib + p.2 < 0) := by omega
    have hI : ¬ (bd.Isha + p.2 < 0) := by omega
    simp [applyOffset, hS, hF, hD, hA, hM, hI]

/-- Witness for `buildCalendars_applyOffset_uniform` at the first
region of the offsets table. -/
theorem buildCalendars_applyOffset_uniform_witness :
    mapGet buildCalendars "–î—É—à–∞–Ω–±–µ" =
      some (baseDays.map (fun bd => applyOffset bd 0)) ∧
    ∀ bd ∈ baseDays, applyOffset bd 0 =
      { Data := bd.Data, Day := bd.Day, SuhoorEnd := bd.SuhoorEnd + 0,
        Fajr := bd.Fajr + 0, Dhuhr := bd.Dhuhr + 0, Asr := bd.Asr + 0,
        Maghrib := bd.Maghrib + 0, Isha := bd.Isha + 0 } :=
  buildCalendars_applyOffset_uniform ("–î—É—à–∞–Ω–±–µ", 0) (by decide)

end Ramadan

namespace Ramadan

/-- `cachedImage` (main.go:162): payload bytes (modelled as `List Nat`)
plus absolute expiry (Unix seconds). -/
structure cachedImage where
  data      : List Nat
  expiresAt : Int
  deriving DecidableEq, Repr

/-- `imageCache` (main.go:157): the entry map (the lock is a
concurrency artefact with no sequential content). -/
structure imageCache where
  items : List (String × cachedImage)
  deriving DecidableEq, Repr

/-- The entry-map update of the build-and-store path of
`imageCache.getOrBuild` (main.go:1594-1607): store the freshly built
bytes expiring at `now + ttl`, then if more than 512 entries remain
sweep out all currently-expired entries.  The `time.Now()` re-reads
inside one call are modelled as the same instant `now`. -/
def storeItems (items : List (String × cachedImage)) (now : Int)
    (key : String) (ttl : Int) (data : List Nat) :
    List (String × cachedImage) :=
  let items1 := mapPut items key ⟨data, now + ttl⟩
  if 512 < items1.length then
    items1.filter (fun p => decide (¬ now > p.2.expiresAt))
  else items1

/-- The build-and-store path of `imageCache.getOrBuild`
(main.go:1588-1609): run the builder, on error return it without
touching the cache, on success store a copy (slice copies,
`append([]byte(nil), ...)`, are value copies in the model) and return
the bytes. -/
def getOrBuildStore (cache : imageCache) (now : Int) (key : String)
    (ttl : Int) (build : Except String (List Nat)) :
    Except String (List Nat) × Option imageCache × Bool :=
  match build with
  | Except.error e => (Except.error e, some cache, true)
  | Except.ok data =>
    (Except.ok data, some ⟨storeItems cache.items now key ttl data⟩, true)

/-- `imageCache.getOrBuild` (main.go:1574).  The receiver may be Go
`nil` (`none`); `build` is the builder outcome (`([]byte, error)` as
`Except String (List Nat)`).  Returns the call's result, the cache
after the call, and whether the builder ran.  A hit requires the entry
to be present and unexpired (`now.Before(expiresAt)`, strict). -/
def getOrBuild (c : Option imageCache) (now : Int) (key : String)
    (ttl : Int) (build : Except String (List Nat)) :
    Except String (List Nat) × Option imageCache × Bool :=
  match c with
  | none => (build, none, true)
  | some cache =>
    if ttl ≤ 0 then (build, some cache, true)
    else
      match mapGet cache.items key with
      | some cached =>
        if now < cached.expiresAt then
          (Except.ok cached.data, some cache, false)
        else getOrBuildStore cache now key ttl build
      | none => getOrBuildStore cache now key ttl build

theorem getOrBuild_miss (cache : imageCache) (now : Int) (key : String)
    (ttl : Int) (build : Except String (List Nat)) (hnp : ¬ ttl ≤ 0)
    (hm : mapGet cache.items key = none) :
    getOrBuild (some cache) now key ttl build =
      getOrBuildStore cache now key ttl build := by
  simp only [getOrBuild, hm, hnp, if_false]

theorem getOrBuild_hit (cache : imageCache) (now : Int) (key : String)
    (ttl : Int) (build : Except String (List Nat)) (cached : cachedImage)
    (hnp : ¬ ttl ≤ 0) (hm : mapGet cache.items key = some cached)
    (hfresh : now < cached.expiresAt) :
    getOrBuild (some cache) now key ttl build =
      (Except.ok cached.data, some cache, false) := by
  simp only [getOrBuild, hm, hnp, if_false, hfresh, if_true]

theorem getOrBuild_expired (cache : imageCache) (now : Int) (key : String)
    (ttl : Int) (build : Except String (List Nat)) (cached : cachedImage)
    (hnp : ¬ ttl ≤ 0) (hm : mapGet cache.items key = some cached)
    (hst : ¬ now < cached.expiresAt) :
    getOrBuild (some cache) now key ttl build =
      getOrBuildStore cache now key ttl build := by
  simp only [getOrBuild, hm, hnp, if_false, hst]

theorem mapGet_storeItems_self (items : List (String × cachedImage))
    (now : Int) (key : String) (ttl : Int) (data : List Nat)
    (httl : 0 < ttl) :
    mapGet (storeItems items now key ttl data) key =
      some ⟨data, now + ttl⟩ := by
  unfold storeItems
  by_cases hlen : 512 < (mapPut items key ⟨data, now + ttl⟩).length
  · rw [if_pos hlen]
    rw [show mapPut items key (⟨data, now + ttl⟩ : cachedImage) =
        (key, (⟨data, now + ttl⟩ : cachedImage)) ::
          items.filter (fun p => decide (p.1 ≠ key)) from rfl]
    rw [List.filter_cons]
    rw [show (decide (¬ now >
        ((key, (⟨data, now + ttl⟩ : cachedImage))).2.expiresAt)) = true
      from by simp; omega]
    simp [mapGet]
  · rw [if_neg hlen]
    exact mapGet_mapPut_self _ _ _

end Ramadan

namespace Ramadan

/-- C4: with `ttl > 0` and a key not yet cached, a first call at `t1`
runs the builder and stores its bytes; a second call at any `t2` before
the expiry `t1 + ttl` returns the stored bytes without running the
builder and leaves the cache unchanged; a call at `t3` at or after
expiry runs the builder again. -/
theorem getOrBuild_builds_once (cache : imageCache) (key : String)
    (ttl : Int) (v : List Nat) (t1 t2 t3 : Int) (httl : 0 < ttl)
    (hmiss : mapGet cache.items key = none)
    (h2 : t2 < t1 + ttl) (h3 : t1 + ttl ≤ t3) :
    ∃ cache1 : imageCache,
      getOrBuild (some cache) t1 key ttl (Except.ok v) =
        (Except.ok v, some cache1, true) ∧
      getOrBuild (some cache1) t2 key ttl (Except.ok v) =
        (Except.ok v, some cache1, false) ∧
      (getOrBuild (some cache1) t3 key ttl (Except.ok v)).2.2 = true := by
  have hnp : ¬ ttl ≤ 0 := by omega
  have hkey : mapGet (storeItems cache.items t1 key ttl v) key =
      some ⟨v, t1 + ttl⟩ :=
    mapGet_storeItems_self cache.items t1 key ttl v httl
  refine ⟨⟨storeItems cache.items t1 key ttl v⟩, ?_, ?_, ?_⟩
  · rw [getOrBuild_miss cache t1 key ttl (Except.ok v) hnp hmiss]
    rfl
  · rw [getOrBuild_hit ⟨storeItems cache.items t1 key ttl v⟩ t2 key ttl
      (Except.ok v) ⟨v, t1 + ttl⟩ hnp hkey h2]
  · rw [getOrBuild_expired ⟨storeItems cache.items t1 key ttl v⟩ t3 key ttl
      (Except.ok v) ⟨v, t1 + ttl⟩ hnp hkey (by simp; omega)]
    rfl

/-- Witness for `getOrBuild_builds_once`: empty cache, key `"k"`,
bytes `[7]`, ttl 10 seconds, calls at times 0, 5 and 10. -/
theorem getOrBuild_builds_once_witness :
    ∃ cache1 : imageCache,
      getOrBuild (some ⟨[]⟩) 0 "k" 10 (Except.ok [7]) =
        (Except.ok [7], some cache1, true) ∧
      getOrBuild (some cache1) 5 "k" 10 (Except.ok [7]) =
        (Except.ok [7], some cache1, false) ∧
      (getOrBuild (some cache1) 10 "k" 10 (Except.ok [7])).2.2 = true :=
  getOrBuild_builds_once ⟨[]⟩ "k" 10 [7] 0 5 10 (by decide) (by decide)
    (by decide) (by decide)

/-- C8: with `ttl ≤ 0`, `getOrBuild` bypasses the cache entirely: the
builder runs, its result (success or error) is returned unchanged, and
the entry map is neither consulted nor modified. -/
theorem getOrBuild_ttl_nonpos (c : Option imageCache) (now : Int)
    (key : String) (ttl : Int) (build : Except String (List Nat))
    (h : ttl ≤ 0) :
    getOrBuild c now key ttl build = (build, c, true) := by
  cases c with
  | none => rfl
  | some cache => simp only [getOrBuild, if_pos h]

/-- Witness for `getOrBuild_ttl_nonpos`: a zero ttl on a one-entry
cache returns the builder's error and leaves the cache as it was. -/
theorem getOrBuild_ttl_nonpos_witness :
    getOrBuild (some ⟨[("k", ⟨[1], 99⟩)]⟩) 3 "k" 0 (Except.error "boom") =
      (Except.error "boom", some ⟨[("k", ⟨[1], 99⟩)]⟩, true) :=
  getOrBuild_ttl_nonpos (some ⟨[("k", ⟨[1], 99⟩)]⟩) 3 "k" 0
    (Except.error "boom") (by decide)

end Ramadan

namespace Ramadan

/-- `UserSettings` (main.go:134).  The Go zero value (`&UserSettings{}`)
is `⟨"", "", false, false⟩`. -/
structure UserSettings where
  Language       : String
  Region         : String
  Notifications  : Bool
  RegionSelected : Bool
  deriving DecidableEq, Repr

/-- The Go zero value `UserSettings{}`. -/
def emptySettings : UserSettings := ⟨"", "", false, false⟩

/-- `StateStore.Get` (main.go:1160): look the chat up, creating an
empty record on first access; returns the updated user map and the
record. -/
def Get (users : List (Int × UserSettings)) (chatID : Int) :
    List (Int × UserSettings) × UserSettings :=
  match mapGet users chatID with
  | some settings => (users, settings)
  | none => (mapPut users chatID emptySettings, emptySettings)

/-- `normalizeLang` (main.go:431): lower-case, `_`→`-`, cut at the
first `-` when it is not the leading character, then map the known
aliases; anything else normalizes to `""`.  (`o\x27zbek` is the alias
with an apostrophe.) -/
def normalizeLang (raw : String) : String :=
  let lang0 := ((trimSpace raw).data.map Char.toLower).map
    (fun c => if c = '_' then '-' else c)
  let lang1 := match lang0.findIdx? (fun c => decide (c = '-')) with
    | some idx => if 0 < idx then lang0.take idx else lang0
    | none => lang0
  let s := String.mk lang1
  if s = "tg" ∨ s = "tj" ∨ s = "tjk" ∨ s = "tajik" ∨ s = "taj" then "tg"
  else if s = "ru" ∨ s = "rus" ∨ s = "russian" then "ru"
  else if s = "en" ∨ s = "eng" ∨ s = "english" then "en"
  else if s = "uz" ∨ s = "uzb" ∨ s = "ozbek" ∨ s = "o\x27zbek" then "uz"
  else ""

/-- `StateStore.SetRegion` (main.go:1171): set the region and turn the
notifications and region-selected flags on (the durable snapshot write
that follows is modelled by `writeStateSnapshot`). -/
def SetRegion (users : List (Int × UserSettings)) (chatID : Int)
    (region : String) : List (Int × UserSettings) :=
  let settings := (mapGet users chatID).getD emptySettings
  mapPut users chatID
    { settings with
      Region := region
      Notifications := true
      RegionSelected := true }

/-- `StateStore.SetLanguage` (main.go:1190). -/
def SetLanguage (users : List (Int × UserSettings)) (chatID : Int)
    (lang : String) : List (Int × UserSettings) :=
  let settings := (mapGet users chatID).getD emptySettings
  mapPut users chatID { settings with Language := normalizeLang lang }

/-- `StateStore.SetNotifications` (main.go:1207). -/
def SetNotifications (users : List (Int × UserSettings)) (chatID : Int)
    (enabled : Bool) : List (Int × UserSettings) :=
  let settings := (mapGet users chatID).getD emptySettings
  mapPut users chatID { settings with Notifications := enabled }

/-- `Bot.setNotifications` (main.go:1057): the handler refuses to
toggle notifications while the stored region is empty (it prompts for a
region instead); otherwise it delegates to
`StateStore.SetNotifications`. -/
def botSetNotifications (users : List (Int × UserSettings)) (chatID : Int)
    (enabled : Bool) : List (Int × UserSettings) :=
  let r := Get users chatID
  if r.2.Region = "" then r.1
  else SetNotifications r.1 chatID enabled

/-- `StateStore.ActiveNotificationRegions` (main.go:1224): the chats
with notifications enabled and a non-empty (trimmed) region, mapped to
that trimmed region. -/
def ActiveNotificationRegions :
    List (Int × UserSettings) → List (Int × String)
  | [] => []
  | (chatID, settings) :: rest =>
    let region := trimSpace settings.Region
    if settings.Notifications = false ∨ region = "" then
      ActiveNotificationRegions rest
    else (chatID, region) :: ActiveNotificationRegions rest

/-- Decimal digits of `n`, most significant first; models the digit
production of Go `strconv.FormatInt(·, 10)`. -/
def formatNat (n : Nat) : List Char :=
  if n < 10 then [Nat.digitChar n]
  else formatNat (n / 10) ++ [Nat.digitChar (n % 10)]
termination_by n
decreasing_by exact Nat.div_lt_self (by omega) (by omega)

/-- Go `strconv.FormatInt(i, 10)`. -/
def formatInt (i : Int) : String :=
  if i < 0 then String.mk ('-' :: formatNat (-i).toNat)
  else String.mk (formatNat i.toNat)

/-- The numeric value of a decimal digit character, `none`
otherwise. -/
def digitVal (c : Char) : Option Nat :=
  if '0' ≤ c ∧ c ≤ '9' then some (c.toNat - 48) else none

def parseNatAux (acc : Nat) : List Char → Option Nat
  | [] => some acc
  | c :: cs =>
    match digitVal c with
    | some d => parseNatAux (acc * 10 + d) cs
    | none => none

/-- Decimal digit-string parser; empty input is rejected. -/
def parseNat (cs : List Char) : Option Nat :=
  match cs with
  | [] => none
  | _ :: _ => parseNatAux 0 cs

/-- Go `strconv.ParseInt(s, 10, 64)` as used for persisted chat-id keys
(main.go:1267): optional sign then decimal digits.  The 64-bit range
check is omitted: every key fed back here was produced by
`strconv.FormatInt` from an in-range id. -/
def parseIntChars : List Char → Option Int
  | [] => none
  | c :: cs =>
    if c = '-' then (parseNat cs).map (fun n => -(Int.ofNat n))
    else if c = '+' then (parseNat cs).map (fun n => Int.ofNat n)
    else (parseNat (c :: cs)).map (fun n => Int.ofNat n)

def parseGoInt (s : String) : Option Int :=
  parseIntChars s.data

/-- `persistedStateData` (main.go:1145): the JSON document layout,
subscriber id (decimal string) to settings. -/
structure persistedStateData where
  Users : List (String × UserSettings)
  deriving DecidableEq

/-- The durable state file as the store observes it.  Go stdlib JSON
encoding/decoding (an external collaborator) is modelled as the
identity on the structured value, with distinguished cases for a
missing file (`os.IsNotExist`), contents that are only whitespace, and
contents `json.Unmarshal` rejects. -/
inductive DiskFile
  | absent
  | blank
  | malformed
  | wellFormed (d : persistedStateData)

/-- The fold of `StateStore.loadFromDisk` (main.go:1266) over the
persisted entries: parse each decimal key, skipping unparseable ones,
and store the settings under the parsed chat id. -/
def restoreUsers (entries : List (String × UserSettings)) :
    List (Int × UserSettings) :=
  entries.foldl (fun users kv =>
    match parseGoInt kv.1 with
    | some chatID => mapPut users chatID kv.2
    | none => users) []

/-- `StateStore.loadFromDisk` (main.go:1242): empty configured path or
absent/blank file yield an empty store without error; an unparseable
file is an error; a well-formed file is folded into the user map. -/
def loadFromDisk (path : String) (file : DiskFile) :
    Except String (List (Int × UserSettings)) :=
  if trimSpace path = "" then Except.ok []
  else
    match file with
    | DiskFile.absent => Except.ok []
    | DiskFile.blank => Except.ok []
    | DiskFile.malformed => Except.error "unmarshal error"
    | DiskFile.wellFormed d => Except.ok (restoreUsers d.Users)

/-- `newStateStore` (main.go:1149): trim the configured path, then load
the durable file. -/
def newStateStore (path : String) (file : DiskFile) :
    Except String (List (Int × UserSettings)) :=
  loadFromDisk (trimSpace path) file

/-- `main` (main.go:503): startup aborts (`log.Fatalf`) exactly when
`newStateStore` returns an error. -/
def startupFails (path : String) (file : DiskFile) : Bool :=
  match newStateStore path file with
  | Except.ok _ => false
  | Except.error _ => true

/-- `StateStore.snapshotLocked` (main.go:1278): format each chat id as
a decimal string (nil records cannot arise in the model). -/
def snapshotLocked (users : List (Int × UserSettings)) :
    List (String × UserSettings) :=
  users.map (fun p => (formatInt p.1, p.2))

/-- `writeStateSnapshot` (main.go:1289): an empty path writes nothing
(and is not an error); otherwise the snapshot is marshalled and becomes
the new durable file (the temporary-file-then-rename step and I/O
failures are not modelled). -/
def writeStateSnapshot (path : String)
    (snapshot : List (String × UserSettings)) : Option DiskFile :=
  if trimSpace path = "" then none
  else some (DiskFile.wellFormed ⟨snapshot⟩)

/-- The subscription-store states reachable through the public
operations as the bot's handlers invoke them: `Get`; `SetRegion` with
any region payload satisfying `P` (the `region:` callback handler,
main.go:945, passes the raw payload through unvalidated, which the
parameter `P` makes explicit); `SetLanguage`; and notifications
toggling as guarded by `Bot.setNotifications`. -/
inductive ReachableVia (P : String → Prop) :
    List (Int × UserSettings) → Prop
  | init : ReachableVia P []
  | get (s : List (Int × UserSettings)) (c : Int) :
      ReachableVia P s → ReachableVia P (Get s c).1
  | setRegion (s : List (Int × UserSettings)) (c : Int) (r : String) :
      P r → ReachableVia P s → ReachableVia P (SetRegion s c r)
  | setLanguage (s : List (Int × UserSettings)) (c : Int) (l : String) :
      ReachableVia P s → ReachableVia P (SetLanguage s c l)
  | setNotify (s : List (Int × UserSettings)) (c : Int) (e : Bool) :
      ReachableVia P s → ReachableVia P (botSetNotifications s c e)

/-- The invariant of claim C6: notifications on implies a non-empty
region. -/
def NotifyInvariant (users : List (Int × UserSettings)) : Prop :=
  ∀ chatID settings, mapGet users chatID = some settings →
    settings.Notifications = true → settings.Region ≠ ""

end Ramadan

namespace Ramadan

theorem digitVal_digitChar : ∀ n, n < 10 →
    digitVal (Nat.digitChar n) = some n := by decide

theorem digitChar_range : ∀ n, n < 10 →
    '0' ≤ Nat.digitChar n ∧ Nat.digitChar n ≤ '9' := by decide

theorem formatNat_ne_nil (n : Nat) : formatNat n ≠ [] := by
  rw [formatNat]
  by_cases h : n < 10
  · simp [h]
  · simp [h]

theorem parseNatAux_formatNat (n : Nat) : ∀ (acc : Nat) (rest : List Char),
    parseNatAux acc (formatNat n ++ rest) =
      parseNatAux (acc * 10 ^ (formatNat n).length + n) rest := by
  induction n using Nat.strong_induction_on with
  | _ n ih =>
    intro acc rest
    rw [formatNat]
    by_cases h : n < 10
    · rw [if_pos h]
      simp only [List.singleton_append, parseNatAux, digitVal_digitChar n h,
        List.length_cons, List.length_nil, pow_one]
      simp
    · rw [if_neg h]
      rw [List.append_assoc]
      rw [ih (n / 10) (Nat.div_lt_self (by omega) (by omega)) acc
        ([Nat.digitChar (n % 10)] ++ rest)]
      simp only [List.singleton_append, parseNatAux,
        digitVal_digitChar (n % 10) (Nat.mod_lt _ (by omega))]
      have hlen : (formatNat (n / 10) ++ [Nat.digitChar (n % 10)]).length
          = (formatNat (n / 10)).length + 1 := by simp
      rw [hlen]
      have hrw : (acc * 10 ^ (formatNat (n / 10)).length + n / 10) * 10 +
          n % 10 = acc * 10 ^ ((formatNat (n / 10)).length + 1) + n := by
        calc (acc * 10 ^ (formatNat (n / 10)).length + n / 10) * 10 + n % 10
            = acc * (10 ^ (formatNat (n / 10)).length * 10) +
              (10 * (n / 10) + n % 10) := by ring
          _ = acc * 10 ^ ((formatNat (n / 10)).length + 1) + n := by
              rw [Nat.div_add_mod, ← pow_succ]
      rw [hrw]
      simp

theorem parseNat_formatNat (n : Nat) : parseNat (formatNat n) = some n := by
  have h := parseNatAux_formatNat n 0 []
  rw [List.append_nil] at h
  simp only [parseNatAux, Nat.zero_mul, Nat.zero_add] at h
  obtain ⟨c, cs, hc⟩ : ∃ c cs, formatNat n = c :: cs := by
    cases hfc : formatNat n with
    | nil => exact absurd hfc (formatNat_ne_nil n)
    | cons c cs => exact ⟨c, cs, rfl⟩
  rw [hc] at h
  simpa [parseNat, hc] using h

theorem formatNat_head_digit (n : Nat) :
    ∃ c cs, formatNat n = c :: cs ∧ '0' ≤ c ∧ c ≤ '9' := by
  induction n using Nat.strong_induction_on with
  | _ n ih =>
    rw [formatNat]
    by_cases h : n < 10
    · rw [if_pos h]
      exact ⟨Nat.digitChar n, [], rfl, (digitChar_range n h).1,
        (digitChar_range n h).2⟩
    · rw [if_neg h]
      obtain ⟨c, cs, hc, h0, h9⟩ :=
        ih (n / 10) (Nat.div_lt_self (by omega) (by omega))
      exact ⟨c, cs ++ [Nat.digitChar (n % 10)], by rw [hc]; rfl, h0, h9⟩

/-- Go `strconv.ParseInt` inverts `strconv.FormatInt` on every chat
id. -/
theorem parseGoInt_formatInt (i : Int) : parseGoInt (formatInt i) = some i := by
  by_cases h : i < 0
  · rw [formatInt, if_pos h]
    show parseIntChars ('-' :: formatNat (-i).toNat) = some i
    simp only [parseIntChars]
    rw [if_pos trivial, parseNat_formatNat]
    simp only [Option.map]
    congr 1
    rw [show Int.ofNat (-i).toNat = -i from Int.toNat_of_nonneg (by omega)]
    omega
  · rw [formatInt, if_neg h]
    obtain ⟨c, cs, hc, h0, h9⟩ := formatNat_head_digit i.toNat
    show parseIntChars (formatNat i.toNat) = some i
    rw [hc]
    simp only [parseIntChars]
    have hne1 : ¬ c = '-' := by
      intro hcc
      rw [hcc] at h0
      exact absurd h0 (by decide)
    have hne2 : ¬ c = '+' := by
      intro hcc
      rw [hcc] at h0
      exact absurd h0 (by decide)
    rw [if_neg hne1, if_neg hne2, ← hc, parseNat_formatNat]
    simp only [Option.map]
    congr 1
    exact Int.toNat_of_nonneg (by omega)

theorem mapGet_eq_none {κ α : Type} [DecidableEq κ]
    (m : List (κ × α)) (k : κ) (h : k ∉ m.map Prod.fst) :
    mapGet m k = none := by
  induction m with
  | nil => rfl
  | cons hd tl ih =>
    obtain ⟨k₀, v₀⟩ := hd
    simp only [List.map_cons, List.mem_cons] at h
    push_neg at h
    simp only [mapGet]
    rw [if_neg (fun hh => h.1 hh.symm)]
    exact ih h.2

end Ramadan

namespace Ramadan

theorem restore_fold (users : List (Int × UserSettings)) :
    ∀ (acc : List (Int × UserSettings)) (id : Int),
      (users.map Prod.fst).Nodup →
      mapGet ((snapshotLocked users).foldl (fun m kv =>
          match parseGoInt kv.1 with
          | some chatID => mapPut m chatID kv.2
          | none => m) acc) id =
        (match mapGet users id with
          | some st => some st
          | none => mapGet acc id) := by
  induction users with
  | nil => intro acc id _; rfl
  | cons hd tl ih =>
    intro acc id hnd
    obtain ⟨i, st⟩ := hd
    simp only [List.map_cons, List.nodup_cons] at hnd
    obtain ⟨hni, hnd'⟩ := hnd
    simp only [snapshotLocked, List.map_cons, List.foldl_cons]
    rw [show (match parseGoInt (formatInt i) with
        | some chatID => mapPut acc chatID st
        | none => acc) = mapPut acc i st from by rw [parseGoInt_formatInt]]
    have hstep := ih (mapPut acc i st) id hnd'
    simp only [snapshotLocked] at hstep
    rw [hstep]
    by_cases hid : id = i
    · subst hid
      rw [mapGet_eq_none tl id hni, mapGet_mapPut_self]
      simp [mapGet]
    · have hcons : mapGet ((i, st) :: tl) id = mapGet tl id := by
        simp only [mapGet]
        rw [if_neg (fun hh => hid hh.symm)]
      rw [hcons]
      cases hm : mapGet tl id with
      | some st' => rfl
      | none => exact mapGet_mapPut_ne acc i id st hid

theorem mapGet_restoreUsers (users : List (Int × UserSettings))
    (hnd : (users.map Prod.fst).Nodup) (id : Int) :
    mapGet (restoreUsers (snapshotLocked users)) id = mapGet users id := by
  have h := restore_fold users [] id hnd
  rw [show restoreUsers (snapshotLocked users) =
      (snapshotLocked users).foldl (fun m kv =>
        match parseGoInt kv.1 with
        | some chatID => mapPut m chatID kv.2
        | none => m) [] from rfl]
  rw [h]
  cases hm : mapGet users id with
  | some st => rfl
  | none => rfl

theorem mapPut_keys_nodup {κ α : Type} [DecidableEq κ]
    (m : List (κ × α)) (k : κ) (v : α)
    (h : (m.map Prod.fst).Nodup) : ((mapPut m k v).map Prod.fst).Nodup := by
  simp only [mapPut, List.map_cons, List.nodup_cons]
  constructor
  · intro hk
    simp only [List.mem_map, List.mem_filter] at hk
    obtain ⟨p, ⟨_, hpf⟩, hpk⟩ := hk
    exact (decide_eq_true_eq.mp hpf) hpk
  · exact h.sublist (List.Sublist.map Prod.fst (List.filter_sublist m))

theorem restore_fold_nodup (entries : List (String × UserSettings)) :
    ∀ acc : List (Int × UserSettings), (acc.map Prod.fst).Nodup →
      (((entries.foldl (fun m kv =>
          match parseGoInt kv.1 with
          | some chatID => mapPut m chatID kv.2
          | none => m) acc)).map Prod.fst).Nodup := by
  induction entries with
  | nil => intro acc h; exact h
  | cons kv tl ih =>
    intro acc h
    simp only [List.foldl_cons]
    cases hp : parseGoInt kv.1 with
    | some id => exact ih _ (mapPut_keys_nodup acc id kv.2 h)
    | none => exact ih _ h

theorem restoreUsers_keys_nodup (entries : List (String × UserSettings)) :
    ((restoreUsers entries).map Prod.fst).Nodup :=
  restore_fold_nodup entries [] List.nodup_nil

theorem mapGet_ActiveNotificationRegions
    (users : List (Int × UserSettings))
    (hnd : (users.map Prod.fst).Nodup) (id : Int) :
    mapGet (ActiveNotificationRegions users) id =
      (match mapGet users id with
        | some st =>
          if st.Notifications = true ∧ trimSpace st.Region ≠ "" then
            some (trimSpace st.Region)
          else none
        | none => none) := by
  induction users with
  | nil => rfl
  | cons hd tl ih =>
    obtain ⟨i, st⟩ := hd
    simp only [List.map_cons, List.nodup_cons] at hnd
    obtain ⟨hni, hnd'⟩ := hnd
    simp only [ActiveNotificationRegions]
    by_cases hskip : st.Notifications = false ∨ trimSpace st.Region = ""
    · rw [if_pos hskip, ih hnd']
      by_cases hid : id = i
      · subst hid
        rw [mapGet_eq_none tl id hni]
        rw [show mapGet ((id, st) :: tl) id = some st from by simp [mapGet]]
        show (none : Option String) =
          if st.Notifications = true ∧ trimSpace st.Region ≠ "" then
            some (trimSpace st.Region)
          else none
        rw [if_neg]
        rintro ⟨hn, hr⟩
        rcases hskip with h' | h'
        · rw [h'] at hn
          exact Bool.false_ne_true hn
        · exact hr h'
      · rw [show mapGet ((i, st) :: tl) id = mapGet tl id from by
          simp only [mapGet]; rw [if_neg (fun hh => hid hh.symm)]]
    · rw [if_neg hskip]
      push_neg at hskip
      by_cases hid : id = i
      · subst hid
        rw [show mapGet ((id, trimSpace st.Region) ::
            ActiveNotificationRegions tl) id = some (trimSpace st.Region)
          from by simp [mapGet]]
        rw [show mapGet ((id, st) :: tl) id = some st from by simp [mapGet]]
        have hcond : st.Notifications = true ∧ trimSpace st.Region ≠ "" :=
          ⟨(Bool.eq_false_or_eq_true st.Notifications).resolve_right hskip.1,
            hskip.2⟩
        show some (trimSpace st.Region) =
          if st.Notifications = true ∧ trimSpace st.Region ≠ "" then
            some (trimSpace st.Region)
          else none
        rw [if_pos hcond]
      · rw [show mapGet ((i, trimSpace st.Region) ::
            ActiveNotificationRegions tl) id =
            mapGet (ActiveNotificationRegions tl) id
          from by simp only [mapGet]; rw [if_neg (fun hh => hid hh.symm)]]
        rw [show mapGet ((i, st) :: tl) id = mapGet tl id from by
          simp only [mapGet]; rw [if_neg (fun hh => hid hh.symm)]]
        exact ih hnd'

end Ramadan

namespace Ramadan

theorem NotifyInvariant_mapPut (s : List (Int × UserSettings)) (c : Int)
    (st : UserSettings) (hs : NotifyInvariant s)
    (hst : st.Notifications = true → st.Region ≠ "") :
    NotifyInvariant (mapPut s c st) := by
  intro c' st' hget hnot
  by_cases hc : c' = c
  · subst hc
    rw [mapGet_mapPut_self] at hget
    injection hget with hst'
    subst hst'
    exact hst hnot
  · rw [mapGet_mapPut_ne s c c' st hc] at hget
    exact hs c' st' hget hnot

/-- C6 counterexample: the `region:` callback handler passes its raw
payload to `SetRegion` unvalidated, so the single handler step
`SetRegion(1, "")` is reachable and produces a subscriber with
notifications enabled and an empty region, violating the claimed
invariant. -/
theorem notify_invariant_counterexample :
    ReachableVia (fun _ => True) (SetRegion [] 1 "") ∧
    ¬ NotifyInvariant (SetRegion [] 1 "") :=
  ⟨ReachableVia.setRegion [] 1 "" trivial ReachableVia.init,
   fun h => (h 1 ⟨"", "", true, true⟩ (by decide) rfl) rfl⟩

/-- C6 (amended): in every store state reachable through the public
operations with every `SetRegion` payload non-empty (which is what the
bot's own region keyboard produces), a subscriber with notifications
enabled has a non-empty region.  Unrestricted, the claim fails: the
callback handler forwards an empty `region:` payload verbatim (see the
counterexample). -/
theorem notify_requires_region (s : List (Int × UserSettings))
    (h : ReachableVia (fun r => r ≠ "") s) : NotifyInvariant s := by
  induction h with
  | init =>
    intro c st hget
    exact absurd hget (by simp [mapGet])
  | get s c _ ih =>
    cases hm : mapGet s c with
    | some st =>
      simp only [Get, hm]
      exact ih
    | none =>
      simp only [Get, hm]
      exact NotifyInvariant_mapPut s c emptySettings ih
        (fun hh => absurd hh (by decide))
  | setRegion s c r hr _ ih =>
    simp only [SetRegion]
    exact NotifyInvariant_mapPut _ _ _ ih (fun _ => hr)
  | setLanguage s c l _ ih =>
    simp only [SetLanguage]
    refine NotifyInvariant_mapPut _ _ _ ih ?_
    cases hm : mapGet s c with
    | some st =>
      intro hn
      exact ih c st hm hn
    | none =>
      intro hn
      exact absurd hn Bool.false_ne_true
  | setNotify s c e _ ih =>
    simp only [botSetNotifications]
    cases hm : mapGet s c with
    | none =>
      simp only [Get, hm]
      rw [if_pos (show emptySettings.Region = "" from rfl)]
      exact NotifyInvariant_mapPut s c emptySettings ih
        (fun hh => absurd hh (by decide))
    | some st =>
      simp only [Get, hm]
      by_cases hr : st.Region = ""
      · rw [if_pos hr]
        exact ih
      · rw [if_neg hr]
        simp only [SetNotifications, hm]
        refine NotifyInvariant_mapPut _ _ _ ih ?_
        intro _
        exact hr

/-- Witness for `notify_requires_region`: the state after
`SetRegion(5, "x")` is reachable with non-empty payloads and satisfies
the invariant. -/
theorem notify_requires_region_witness :
    NotifyInvariant (SetRegion [] 5 "x") :=
  notify_requires_region (SetRegion [] 5 "x")
    (ReachableVia.setRegion [] 5 "x" (by decide) ReachableVia.init)

/-- C10: `SetRegion` stores the given region (empty or not), switches
the notifications and region-selected flags on, keeps the subscriber's
language, and leaves every other subscriber's record untouched. -/
theorem SetRegion_frame (users : List (Int × UserSettings)) (chatID : Int)
    (region : String) :
    mapGet (SetRegion users chatID region) chatID =
      some { Language := ((mapGet users chatID).getD emptySettings).Language
             Region := region
             Notifications := true
             RegionSelected := true } ∧
    ∀ other, other ≠ chatID →
      mapGet (SetRegion users chatID region) other = mapGet users other := by
  constructor
  · simp only [SetRegion]
    rw [mapGet_mapPut_self]
  · intro other hother
    simp only [SetRegion]
    exact mapGet_mapPut_ne users chatID other _ hother

/-- Witness for `SetRegion_frame`: a fresh chat 1 next to an existing
chat 2, whose record is untouched. -/
theorem SetRegion_frame_witness :
    mapGet (SetRegion [(2, ⟨"ru", "A", false, false⟩)] 1 "B") 1 =
      some { Language := ((mapGet
               [(2, (⟨"ru", "A", false, false⟩ : UserSettings))] 1).getD
               emptySettings).Language
             Region := "B"
             Notifications := true
             RegionSelected := true } ∧
    mapGet (SetRegion [(2, ⟨"ru", "A", false, false⟩)] 1 "B") 2 =
      mapGet [(2, (⟨"ru", "A", false, false⟩ : UserSettings))] 2 :=
  ⟨(SetRegion_frame [(2, ⟨"ru", "A", false, false⟩)] 1 "B").1,
   (SetRegion_frame [(2, ⟨"ru", "A", false, false⟩)] 1 "B").2 2 (by decide)⟩

/-- C9: at store creation, an absent or blank durable file yields an
empty store and no error (startup proceeds), while a malformed file
makes `newStateStore` return an error, on which `main` aborts
startup. -/
theorem newStateStore_startup (path : String)
    (hpath : trimSpace path = path) (hne : path ≠ "") :
    (newStateStore path DiskFile.absent = Except.ok [] ∧
      startupFails path DiskFile.absent = false) ∧
    (newStateStore path DiskFile.blank = Except.ok [] ∧
      startupFails path DiskFile.blank = false) ∧
    ((∃ e, newStateStore path DiskFile.malformed = Except.error e) ∧
      startupFails path DiskFile.malformed = true) := by
  have hno : ¬ trimSpace path = "" := by rw [hpath]; exact hne
  have habs : newStateStore path DiskFile.absent = Except.ok [] := by
    rw [newStateStore, hpath]
    simp only [loadFromDisk, hno, if_false]
  have hbl : newStateStore path DiskFile.blank = Except.ok [] := by
    rw [newStateStore, hpath]
    simp only [loadFromDisk, hno, if_false]
  have hmal : newStateStore path DiskFile.malformed =
      Except.error "unmarshal error" := by
    rw [newStateStore, hpath]
    simp only [loadFromDisk, hno, if_false]
  refine ⟨⟨habs, ?_⟩, ⟨hbl, ?_⟩, ⟨⟨"unmarshal error", hmal⟩, ?_⟩⟩
  · simp only [startupFails, habs]
  · simp only [startupFails, hbl]
  · simp only [startupFails, hmal]

/-- Witness for `newStateStore_startup` at the default path
`state.json`. -/
theorem newStateStore_startup_witness :
    (newStateStore "state.json" DiskFile.absent = Except.ok [] ∧
      startupFails "state.json" DiskFile.absent = false) ∧
    (newStateStore "state.json" DiskFile.blank = Except.ok [] ∧
      startupFails "state.json" DiskFile.blank = false) ∧
    ((∃ e, newStateStore "state.json" DiskFile.malformed =
        Except.error e) ∧
      startupFails "state.json" DiskFile.malformed = true) :=
  newStateStore_startup "state.json" (by decide) (by decide)

/-- C5: writing a snapshot of the user map and loading it back through
the durable file reproduces an equivalent map (same chat ids, equal
records, empty-region subscribers included), and
`ActiveNotificationRegions` on the reloaded map returns exactly the
subscribers with notifications on and a non-empty trimmed region,
mapped to that trimmed region. -/
theorem snapshot_roundtrip (users : List (Int × UserSettings))
    (path : String) (hnd : (users.map Prod.fst).Nodup)
    (hpath : trimSpace path = path) (hne : path ≠ "") :
    writeStateSnapshot path (snapshotLocked users) =
      some (DiskFile.wellFormed ⟨snapshotLocked users⟩) ∧
    loadFromDisk path (DiskFile.wellFormed ⟨snapshotLocked users⟩) =
      Except.ok (restoreUsers (snapshotLocked users)) ∧
    (∀ id, mapGet (restoreUsers (snapshotLocked users)) id =
      mapGet users id) ∧
    (∀ id, mapGet (ActiveNotificationRegions
        (restoreUsers (snapshotLocked users))) id =
      (match mapGet users id with
        | some st =>
          if st.Notifications = true ∧ trimSpace st.Region ≠ "" then
            some (trimSpace st.Region)
          else none
        | none => none)) := by
  have hno : ¬ trimSpace path = "" := by rw [hpath]; exact hne
  refine ⟨?_, ?_, ?_, ?_⟩
  · rw [writeStateSnapshot, if_neg hno]
  · simp only [loadFromDisk, hno, if_false]
  · intro id
    exact mapGet_restoreUsers users hnd id
  · intro id
    rw [mapGet_ActiveNotificationRegions _ (restoreUsers_keys_nodup _) id]
    rw [mapGet_restoreUsers users hnd id]

/-- Two concrete subscribers: chat 1 active with region `"x"`, chat -2
with notifications off and an empty region. -/
def sampleUsers : List (Int × UserSettings) :=
  [(1, ⟨"ru", "x", true, true⟩), (-2, ⟨"", "", false, false⟩)]

/-- Witness for `snapshot_roundtrip` at `sampleUsers` (one active
subscriber, one with notifications off and an empty region). -/
theorem snapshot_roundtrip_witness :
    writeStateSnapshot "state.json" (snapshotLocked sampleUsers) =
      some (DiskFile.wellFormed ⟨snapshotLocked sampleUsers⟩) ∧
    loadFromDisk "state.json"
        (DiskFile.wellFormed ⟨snapshotLocked sampleUsers⟩) =
      Except.ok (restoreUsers (snapshotLocked sampleUsers)) ∧
    (∀ id, mapGet (restoreUsers (snapshotLocked sampleUsers)) id =
      mapGet sampleUsers id) ∧
    (∀ id, mapGet (ActiveNotificationRegions
        (restoreUsers (snapshotLocked sampleUsers))) id =
      (match mapGet sampleUsers id with
        | some st =>
          if st.Notifications = true ∧ trimSpace st.Region ≠ "" then
            some (trimSpace st.Region)
          else none
        | none => none)) :=
  snapshot_roundtrip sampleUsers "state.json" (by decide) (by decide)
    (by decide)

end Ramadan
